import Mathlib

set_option linter.unusedVariables false
set_option maxRecDepth 4000

/-!
Verification development for the staged-simulation polymer MD driver
(`src/simulation.py`, `src/system.py`).  The Python classes are shallowly
embedded: floating point numbers appearing in exact algebraic roles are
modelled by `ℚ` (engine state, atom masses) or by `ℝ` (the box-density solve,
which takes cube and square roots); Python exceptions are modelled by an
explicit `Except PyError` result.
-/

namespace PolymerMD

/-- Python exceptions that the modelled code can raise.  `nameError s` models a
Python NameError on the undefined identifier `s`. -/
inductive PyError
  | runtimeError
  | nameError (missing : String)
  | indexError
  | zeroDivisionError
  deriving DecidableEq

/-- Model of hoomd.variant.Ramp(A, B, t_start, t_ramp).  Modelled from the
spec: the external engine's ramp variant holds value A up to `t_start`, rises
linearly to B over `t_ramp` steps, and stays at B from `t_start + t_ramp` on. -/
structure Ramp where
  A : ℚ
  B : ℚ
  t_start : ℕ
  t_ramp : ℕ
  deriving DecidableEq

/-- Value of a ramp variant at timestep `t` (clamped linear interpolation). -/
def Ramp.value (r : Ramp) (t : ℕ) : ℚ :=
  if r.t_start + r.t_ramp ≤ t then r.B
  else if t ≤ r.t_start then r.A
  else r.A + (r.B - r.A) * ((t : ℚ) - (r.t_start : ℚ)) / (r.t_ramp : ℚ)

/-- A temperature argument: either a constant or a hoomd ramp variant. -/
inductive KTValue
  | const (value : ℚ)
  | ramp (r : Ramp)
  deriving DecidableEq

/-- The integrator methods the run functions attach, with the keyword
arguments each run function passes (an embedding of the
`integrator_method(**method_kwargs)` calls in simulation.py). -/
inductive IntegratorMethod
  | NVT (tau : ℚ) (kT : KTValue)
  | Langevin (kT : KTValue) (alpha : ℚ) (tally_reservoir_energy : Bool)
      (default_gamma : ℚ) (default_gamma_r : ℚ × ℚ × ℚ)
  | NPT (kT : KTValue) (S : ℚ) (tau : ℚ) (tauS : ℚ) (couple : String)
      (box_dof : List Bool) (rescale_all : Bool) (gamma : ℚ)
  | NVE
  deriving DecidableEq

/-- Simulation box edge lengths (tilt factors are never touched by the
modelled code and are omitted). -/
structure Box where
  Lx : ℚ
  Ly : ℚ
  Lz : ℚ
  deriving DecidableEq

/-- Model of hoomd.update.BoxResize with a Periodic(trigger) trigger:
interpolates between `box1` and `box2` according to `variant`. -/
structure BoxResize where
  box1 : Box
  box2 : Box
  variant : Ramp
  trigger : ℕ
  deriving DecidableEq

/-- The box that a BoxResize updater writes when it fires at timestep `t`.
Modelled from the spec: the external engine sets the box to the interpolation
of box1 and box2 by the variant's current value (it does not read the current
box). -/
def BoxResize.boxAt (u : BoxResize) (t : ℕ) : Box :=
  let s := u.variant.value t
  { Lx := u.box1.Lx + s * (u.box2.Lx - u.box1.Lx)
    Ly := u.box1.Ly + s * (u.box2.Ly - u.box1.Ly)
    Lz := u.box1.Lz + s * (u.box2.Lz - u.box1.Lz) }

/-- Model of hoomd.md.Integrator: the dt it was constructed with and its
(mutable) list of methods. -/
structure Integrator where
  dt : ℚ
  methods : List IntegratorMethod
  deriving DecidableEq

/-- The state of a `Simulation` object from simulation.py that the claims
concern: the hoomd simulation timestep and box, the updaters list, and the
integrator (absent until the first run function executes).  Particle
positions/momenta and the writers live in the external engine and are not
read by any modelled claim. -/
structure Simulation where
  dt : ℚ
  timestep : ℕ
  box : Box
  updaters : List BoxResize
  integrator : Option Integrator
  deriving DecidableEq

/-- Model of the `Simulation.method` property: `methods[0]` of the integrator
if one exists (IndexError on an empty methods list), RuntimeError otherwise. -/
def Simulation.method (s : Simulation) : Except PyError IntegratorMethod :=
  match s.integrator with
  | some intg =>
    match intg.methods with
    | m :: _ => .ok m
    | [] => .error .indexError
  | none => .error .runtimeError

/-- Model of `Simulation.set_integrator_method`: if no integrator exists yet,
create one bound to dt and attach the new method as the sole entry of its
methods list; otherwise remove `self.method` (the first entry, removed by
`list.remove` which deletes the first equal element, i.e. index 0) and append
the new method. -/
def Simulation.set_integrator_method (s : Simulation) (new_method : IntegratorMethod) :
    Except PyError Simulation :=
  match s.integrator with
  | none => .ok { s with integrator := some { dt := s.dt, methods := [new_method] } }
  | some intg =>
    match intg.methods with
    | _ :: rest =>
      .ok { s with integrator := some { intg with methods := rest ++ [new_method] } }
    | [] => .error .indexError

/-- One firing pass of the updaters list at timestep `t`.  Modelled from the
spec: a Periodic(p) trigger fires when the timestep is a multiple of p, and a
fired BoxResize writes the interpolated box. -/
def applyUpdaters (t : ℕ) (us : List BoxResize) (b : Box) : Box :=
  us.foldl (fun acc u => if t % u.trigger = 0 then u.boxAt t else acc) b

/-- One simulation step: the timestep advances by one and triggered updaters
act at the new timestep (hoomd triggers operations at the end of each step of
`Simulation.run`, with `write_at_start` defaulting to false). -/
def Simulation.stepOnce (s : Simulation) : Simulation :=
  let t := s.timestep + 1
  { s with timestep := t, box := applyUpdaters t s.updaters s.box }

/-- Model of `self.sim.run(n)`: advance `n` steps. -/
def Simulation.run (s : Simulation) : ℕ → Simulation
  | 0 => s
  | n + 1 => Simulation.run s.stepOnce n

/-- Model of `Simulation.run_shrink`: build the 0→1 ramp anchored at the
current timestep over `n_steps`, append a BoxResize updater from the current
box to `final_box_lengths`, set the NVT method, (thermalization touches only
particle momenta, which are external-engine state), and run `n_steps`. -/
def Simulation.run_shrink (s : Simulation) (n_steps period : ℕ) (kT : KTValue)
    (tau_kt : ℚ) (final_box_lengths : Box) (thermalize_particles : Bool) :
    Except PyError Simulation :=
  let box_ramp : Ramp := { A := 0, B := 1, t_start := s.timestep, t_ramp := n_steps }
  let box_resizer : BoxResize :=
    { box1 := s.box, box2 := final_box_lengths, variant := box_ramp, trigger := period }
  let s1 := { s with updaters := s.updaters ++ [box_resizer] }
  (s1.set_integrator_method (.NVT tau_kt kT)).map fun s2 => s2.run n_steps

/-- Model of `Simulation.run_NVT`. -/
def Simulation.run_NVT (s : Simulation) (n_steps : ℕ) (kT : KTValue) (tau_kt : ℚ)
    (thermalize_particles : Bool) : Except PyError Simulation :=
  (s.set_integrator_method (.NVT tau_kt kT)).map fun s1 => s1.run n_steps

/-- Model of `Simulation.run_NPT` (the method kwargs dictionary literal lists
the key kT twice with the same value, which in Python keeps the last one). -/
def Simulation.run_NPT (s : Simulation) (n_steps : ℕ) (kT : KTValue) (pressure : ℚ)
    (tau_kt tau_pressure : ℚ) (couple : String) (box_dof : List Bool)
    (rescale_all : Bool) (gamma : ℚ) (thermalize_particles : Bool) :
    Except PyError Simulation :=
  (s.set_integrator_method
      (.NPT kT pressure tau_kt tau_pressure couple box_dof rescale_all gamma)).map
    fun s1 => s1.run n_steps

/-- Model of `Simulation.run_NVE`. -/
def Simulation.run_NVE (s : Simulation) (n_steps : ℕ) : Except PyError Simulation :=
  (s.set_integrator_method .NVE).map fun s1 => s1.run n_steps

/-- Model of `Simulation.run_langevin`.  The body builds the method keyword
dictionary with the expression `tally_resivoir_energy`, an identifier that is
defined nowhere (the parameter is spelled tally_reservoir_energy), so every
call raises NameError while evaluating the dictionary literal, before any
state is touched.  (Were that fixed, the final line `self.run(n_steps)` would
raise AttributeError: Simulation has no `run`; the sibling methods call
`self.sim.run`.) -/
def Simulation.run_langevin (s : Simulation) (n_steps : ℕ) (kT : KTValue) (alpha : ℚ)
    (tally_reservoir_energy : Bool) (default_gamma : ℚ)
    (default_gamma_r : ℚ × ℚ × ℚ) (thermalize_particles : Bool) :
    Except PyError Simulation :=
  .error (.nameError "tally_resivoir_energy")

/-- Model of `Simulation.temperature_ramp`: the body constructs
`hoomd.variant.Ramp(A=kT_init, ...)` where `kT_init` is defined nowhere (the
parameter is spelled kT_start), so every call raises NameError. -/
def Simulation.temperature_ramp (s : Simulation) (n_steps : ℕ)
    (kT_start kT_final : ℚ) : Except PyError Ramp :=
  .error (.nameError "kT_init")

/-- The reachability invariant for the method list: no integrator yet, or an
integrator holding exactly one method. -/
def Simulation.oneMethod (s : Simulation) : Bool :=
  match s.integrator with
  | none => true
  | some intg => intg.methods.length == 1

/-- A freshly constructed engine: no integrator, timestep 0, the initial box. -/
def freshSim : Simulation :=
  { dt := 3 / 10000, timestep := 0, box := { Lx := 20, Ly := 20, Lz := 20 },
    updaters := [], integrator := none }

/-- The BoxResize updater that run_shrink installs for a 5-step shrink with
period 10 from a fresh engine. -/
def resize5 : BoxResize :=
  { box1 := { Lx := 20, Ly := 20, Lz := 20 }, box2 := { Lx := 10, Ly := 10, Lz := 10 },
    variant := { A := 0, B := 1, t_start := 0, t_ramp := 5 }, trigger := 10 }

/-- The engine state just before stepping inside
`freshSim.run_shrink 5 10 (const 1) 1 (10,10,10) true`. -/
def shrunk5 : Simulation :=
  { dt := 3 / 10000, timestep := 0, box := { Lx := 20, Ly := 20, Lz := 20 },
    updaters := [resize5],
    integrator := some { dt := 3 / 10000, methods := [.NVT 1 (.const 1)] } }

/-- The BoxResize updater that run_shrink installs for a 1000-step shrink with
period 10 from a fresh engine. -/
def resize1000 : BoxResize :=
  { box1 := { Lx := 20, Ly := 20, Lz := 20 }, box2 := { Lx := 10, Ly := 10, Lz := 10 },
    variant := { A := 0, B := 1, t_start := 0, t_ramp := 1000 }, trigger := 10 }

/-- The engine state just before stepping inside
`freshSim.run_shrink 1000 10 (const 1) 1 (10,10,10) true`. -/
def shrunk1000 : Simulation :=
  { dt := 3 / 10000, timestep := 0, box := { Lx := 20, Ly := 20, Lz := 20 },
    updaters := [resize1000],
    integrator := some { dt := 3 / 10000, methods := [.NVT 1 (.const 1)] } }

/-- A parmed atom as read by `Simulation.__init__` lines 70-76: its type
string, mass, and the per-type pair parameters epsilon and sigma. -/
structure PAtom where
  type : String
  mass : ℚ
  epsilon : ℚ
  sigma : ℚ
  deriving DecidableEq

/-- Model of Python `max(xs, key=f)` on a non-empty list: the first element
attaining the maximal key (Python replaces the running maximum only on a
strict increase); `none` on the empty list (Python raises ValueError). -/
def pyMaxBy {α : Type} (key : α → ℚ) : List α → Option α
  | [] => none
  | x :: xs => some (xs.foldl (fun acc y => if key acc < key y then y else acc) x)

/-- The de-duplicated (type, epsilon, sigma) tuples,
`list(set((atom.type, atom.epsilon, atom.sigma) for atom in atoms))`.
Python's set iteration order is unspecified; `List.dedup` fixes one
representative order, and every property proved below is order-independent. -/
def pair_coeffs (atoms : List PAtom) : List (String × ℚ × ℚ) :=
  (atoms.map fun a => (a.type, a.epsilon, a.sigma)).dedup

/-- `self.ref_mass = max([atom.mass for atom in self.system.atoms])`. -/
def ref_mass (atoms : List PAtom) : Option ℚ :=
  pyMaxBy id (atoms.map PAtom.mass)

/-- `self.ref_energy = max(pair_coeffs, key=operator.itemgetter(1))[1]`. -/
def ref_energy (atoms : List PAtom) : Option ℚ :=
  (pyMaxBy (fun p => p.2.1) (pair_coeffs atoms)).map (fun p => p.2.1)

/-- `self.ref_distance = max(pair_coeffs, key=operator.itemgetter(2))[2]`. -/
def ref_distance (atoms : List PAtom) : Option ℚ :=
  (pyMaxBy (fun p => p.2.2) (pair_coeffs atoms)).map (fun p => p.2.2)

/-- A concrete two-atom typed system: the maximal-epsilon tuple is atom B's
while the maximal-sigma tuple is atom A's. -/
def refAtoms : List PAtom :=
  [{ type := "A", mass := 12, epsilon := 1, sigma := 3 },
   { type := "B", mass := 1, epsilon := 2, sigma := 1 }]

/-- A parmed atom as touched by the united-atom branch of
`System.apply_forcefield`: atomic number (`element` and `atomic_number` agree
in parmed), mass and charge. -/
structure TAtom where
  element : ℕ
  mass : ℚ
  charge : ℚ
  deriving DecidableEq

/-- A typed topology: atoms and bonds (as index pairs into the atom list,
in creation order, which is the order parmed reports bond partners in). -/
structure Structure where
  atoms : List TAtom
  bonds : List (ℕ × ℕ)
  deriving DecidableEq

/-- The bond partners of atom `i`, in bond-creation order. -/
def bond_partners (bonds : List (ℕ × ℕ)) (i : ℕ) : List ℕ :=
  bonds.filterMap fun p =>
    if p.1 = i then some p.2 else if p.2 = i then some p.1 else none

/-- Indices of hydrogen atoms (the check `a.element == 1`), in atom order,
mirroring `hydrogens = [a for a in self.typed_system.atoms if a.element == 1]`. -/
def hydrogenIdx (s : Structure) : List ℕ :=
  (List.range s.atoms.length).filter fun i =>
    match s.atoms[i]? with
    | some a => a.element == 1
    | none => false

/-- One iteration of the `for h in hydrogens` loop: look up the hydrogen's
first bond partner (`h.bond_partners[0]`, IndexError when there is none) and
add the hydrogen's current mass and charge onto that partner. -/
def foldHydrogen (bonds : List (ℕ × ℕ)) (acc : List TAtom) (i : ℕ) :
    Except PyError (List TAtom) :=
  match (bond_partners bonds i).head? with
  | none => .error .indexError
  | some j =>
    match acc[i]?, acc[j]? with
    | some h, some b =>
      .ok (acc.set j { b with mass := b.mass + h.mass, charge := b.charge + h.charge })
    | _, _ => .error .indexError

/-- Model of the united-atom branch of `System.apply_forcefield` (the
`self.united_atom` path): fold every hydrogen's mass and charge into its first
bond partner, then strip the atoms whose atomic number is 1.  The surrounding
`forcefield.apply` and `create_hoomd_forcefield` calls are external
collaborators; the modelled value is the resulting atom list. -/
def apply_forcefield_strip (s : Structure) : Except PyError (List TAtom) :=
  ((hydrogenIdx s).foldlM (foldHydrogen s.bonds) s.atoms).map fun atoms =>
    atoms.filter fun a => a.element != 1

/-- The mass of the atom at index `i` (0 when out of range). -/
def massAt (atoms : List TAtom) (i : ℕ) : ℚ :=
  match atoms[i]? with
  | some a => a.mass
  | none => 0

/-- The charge of the atom at index `i` (0 when out of range). -/
def chargeAt (atoms : List TAtom) (i : ℕ) : ℚ :=
  match atoms[i]? with
  | some a => a.charge
  | none => 0

/-- Total mass that the hydrogens listed in `is` whose first bond partner is
atom `k` contribute to atom `k` during the united-atom fold. -/
def sumMassInto (bonds : List (ℕ × ℕ)) (atoms : List TAtom) (is : List ℕ)
    (k : ℕ) : ℚ :=
  ((is.filter fun i => (bond_partners bonds i).head? == some k).map
    (massAt atoms)).sum

/-- Total charge that the hydrogens listed in `is` whose first bond partner is
atom `k` contribute to atom `k` during the united-atom fold. -/
def sumChargeInto (bonds : List (ℕ × ℕ)) (atoms : List TAtom) (is : List ℕ)
    (k : ℕ) : ℚ :=
  ((is.filter fun i => (bond_partners bonds i).head? == some k).map
    (chargeAt atoms)).sum

/-- The atom at index `k` after the hydrogen fold: its mass and charge grow by
the totals of the hydrogens whose first bond partner is `k`. -/
def foldedAtom (s : Structure) (k : ℕ) : TAtom :=
  match s.atoms[k]? with
  | some a =>
    { element := a.element,
      mass := a.mass + sumMassInto s.bonds s.atoms (hydrogenIdx s) k,
      charge := a.charge + sumChargeInto s.bonds s.atoms (hydrogenIdx s) k }
  | none => { element := 0, mass := 0, charge := 0 }

/-- All atoms after the hydrogen fold, in order. -/
def foldedAtoms (s : Structure) : List TAtom :=
  (List.range s.atoms.length).map (foldedAtom s)

/-- The expected result of the united-atom reduction: fold every hydrogen
into its first bond partner, then drop the hydrogens. -/
def strippedAtoms (s : Structure) : List TAtom :=
  (foldedAtoms s).filter fun a => a.element != 1

/-- One carbon (mass 12, charge -1/10) bonded to one hydrogen (mass 1,
charge 1/10) — the united-atom example of the spec. -/
def chStructure : Structure :=
  { atoms := [{ element := 6, mass := 12, charge := -1/10 },
      { element := 1, mass := 1, charge := 1/10 }],
    bonds := [(0, 1)] }

/-- A single hydrogen with no bonds at all. -/
def loneHStructure : Structure :=
  { atoms := [{ element := 1, mass := 1, charge := 1/10 }], bonds := [] }

/-- A hydrogen bonded to two carbons: not exactly one bond partner. -/
def twoBondHStructure : Structure :=
  { atoms := [{ element := 1, mass := 1, charge := 1/10 },
      { element := 6, mass := 12, charge := -1/10 },
      { element := 6, mass := 12, charge := -1/10 }],
    bonds := [(0, 1), (0, 2)] }

/-- Model of `System._calculate_L` over exact reals.  Converts the system
mass from amu to grams (factor 1.66054e-24), divides by the density to get a
volume in cm^3, takes the cube root (no constraints) or divides by the product
of the fixed cm edges (square root when exactly one edge is fixed), and
converts the edge back with the factor 1e7.  A density of exactly zero raises
ZeroDivisionError in Python; no other validation exists.  (Python would
produce a complex number for a negative volume under a fractional power; no
theorem below evaluates that regime, where `Real.rpow` and Python part ways.) -/
noncomputable def calculate_L (mass density : ℝ) (fixed_L : Option (List ℝ)) :
    Except PyError ℝ :=
  if density = 0 then .error .zeroDivisionError
  else
    let M := mass * 1.66054e-24
    let vol := M / density
    match fixed_L with
    | none => .ok (vol ^ ((1 : ℝ) / 3) * 1e7)
    | some fl =>
      let L0 := vol / fl.prod
      let L1 := if fl.length = 1 then L0 ^ ((1 : ℝ) / 2) else L0
      .ok (L1 * 1e7)

/-- Model of `System.set_target_box`.  Python's `any([x, y, z])` is false iff
every constraint is None or 0.0 (float truthiness), in which case the box is
cubic; otherwise the non-None constraints are collected (a 0.0 constraint
included), scaled nm→cm by 1e-7 into `fixed_L` (a copy, so the returned
constrained edges keep their original nm values), and the solved length fills
the None slots. -/
noncomputable def set_target_box (mass density : ℝ)
    (x_constraint y_constraint z_constraint : Option ℝ) :
    Except PyError (ℝ × ℝ × ℝ) :=
  if x_constraint.getD 0 = 0 ∧ y_constraint.getD 0 = 0 ∧ z_constraint.getD 0 = 0 then
    (calculate_L mass density none).map fun L => (L, L, L)
  else
    let fixed_L := ([x_constraint, y_constraint, z_constraint].filterMap id).map
      fun v => v * 1e-7
    (calculate_L mass density (some fixed_L)).map fun L =>
      (x_constraint.getD L, y_constraint.getD L, z_constraint.getD L)

theorem run_timestep (s : Simulation) (n : ℕ) : (s.run n).timestep = s.timestep + n := by
  induction n generalizing s with
  | zero => rfl
  | succ k ih =>
    show (s.stepOnce.run k).timestep = _
    rw [ih]
    simp [Simulation.stepOnce]
    omega

theorem run_integrator (s : Simulation) (n : ℕ) : (s.run n).integrator = s.integrator := by
  induction n generalizing s with
  | zero => rfl
  | succ k ih =>
    show (s.stepOnce.run k).integrator = _
    rw [ih]
    rfl

theorem run_updaters (s : Simulation) (n : ℕ) : (s.run n).updaters = s.updaters := by
  induction n generalizing s with
  | zero => rfl
  | succ k ih =>
    show (s.stepOnce.run k).updaters = _
    rw [ih]
    rfl

theorem set_integrator_method_ok (s : Simulation) (h : s.oneMethod = true)
    (m : IntegratorMethod) :
    ∃ s1, s.set_integrator_method m = .ok s1 ∧
      s1.integrator.map Integrator.methods = some [m] ∧
      s1.timestep = s.timestep ∧ s1.box = s.box ∧ s1.updaters = s.updaters ∧
      s1.oneMethod = true := by
  match hI : s.integrator with
  | none =>
    refine ⟨{ s with integrator := some { dt := s.dt, methods := [m] } },
      ?_, rfl, rfl, rfl, rfl, rfl⟩
    unfold Simulation.set_integrator_method
    rw [hI]
  | some intg =>
    obtain ⟨dtv, ms⟩ := intg
    have hlen : ms.length = 1 := by simpa [Simulation.oneMethod, hI] using h
    obtain ⟨m0, hm0⟩ := List.length_eq_one.mp hlen
    subst hm0
    refine ⟨{ s with integrator := some { dt := dtv, methods := [m] } },
      ?_, rfl, rfl, rfl, rfl, rfl⟩
    unfold Simulation.set_integrator_method
    rw [hI]
    rfl

/-- C2: every run* set-method step leaves exactly one integration method
attached, the newly requested one (the previous one is removed in place, no
second integrator or method accumulates); calling run_NVT twice in succession
with identical parameters leaves exactly one NVT method attached and the
timestep counter, far from being reset, advances by both step counts. -/
theorem claim_C2_single_method (s : Simulation) (h : s.oneMethod = true)
    (m : IntegratorMethod) (n : ℕ) (kT : KTValue) (tau : ℚ) (bl : Bool) :
    (∃ s1, s.set_integrator_method m = .ok s1 ∧
      s1.integrator.map Integrator.methods = some [m] ∧
      s1.timestep = s.timestep) ∧
    (∃ s2, (s.run_NVT n kT tau bl).bind (fun x => x.run_NVT n kT tau bl) = .ok s2 ∧
      s2.integrator.map Integrator.methods = some [IntegratorMethod.NVT tau kT] ∧
      s2.timestep = s.timestep + n + n) := by
  obtain ⟨s1, hset, hmeth, hts, hbox, hupd, hone⟩ := set_integrator_method_ok s h
    (.NVT tau kT)
  constructor
  · obtain ⟨t1, hset1, hmeth1, hts1, _, _, _⟩ := set_integrator_method_ok s h m
    exact ⟨t1, hset1, hmeth1, hts1⟩
  · have hrun1 : s.run_NVT n kT tau bl = .ok (s1.run n) := by
      unfold Simulation.run_NVT
      rw [hset]
      rfl
    have hone1 : (s1.run n).oneMethod = true := by
      unfold Simulation.oneMethod at hone ⊢
      rw [run_integrator]
      exact hone
    obtain ⟨s2, hset2, hmeth2, hts2, _, _, _⟩ :=
      set_integrator_method_ok (s1.run n) hone1 (.NVT tau kT)
    have hrun2 : (s1.run n).run_NVT n kT tau bl = .ok (s2.run n) := by
      unfold Simulation.run_NVT
      rw [hset2]
      rfl
    refine ⟨s2.run n, ?_, ?_, ?_⟩
    · rw [hrun1]
      exact hrun2
    · rw [run_integrator]
      exact hmeth2
    · rw [run_timestep, hts2, run_timestep, hts]

/-- C2 witness: the double run_NVT property instantiated on a concrete fresh
engine. -/
theorem claim_C2_single_method_witness :
    freshSim.oneMethod = true ∧
    (∃ s2, (freshSim.run_NVT 7 (.const 1) 1 true).bind
        (fun x => x.run_NVT 7 (.const 1) 1 true) = .ok s2 ∧
      s2.integrator.map Integrator.methods = some [IntegratorMethod.NVT 1 (.const 1)] ∧
      s2.timestep = freshSim.timestep + 7 + 7) :=
  ⟨by decide,
    (claim_C2_single_method freshSim (by decide) .NVE 7 (.const 1) 1 true).2⟩

/-- C1: the claim quantifies over sequences of all five run functions, but
run_langevin can never contribute its steps: every call raises NameError on
the undefined identifier tally_resivoir_energy (the parameter the body meant
to read is spelled tally_reservoir_energy), so a sequence containing it fails
before its steps are taken. -/
theorem claim_C1_run_langevin_raises :
    freshSim.run_langevin 100 (.const 1) 1 false 1 (1, 1, 1) true =
      .error (.nameError "tally_resivoir_energy") := rfl

/-- C8: every call of temperature_ramp raises NameError on the undefined
identifier kT_init (the parameter is spelled kT_start); no Ramp anchored at
the current timestep is ever returned. -/
theorem claim_C8_temperature_ramp_raises :
    freshSim.temperature_ramp 100 1 2 = .error (.nameError "kT_init") := rfl

theorem method_of_single (s1 : Simulation) (m : IntegratorMethod)
    (hm : s1.integrator.map Integrator.methods = some [m]) (n : ℕ) :
    (s1.run n).method = .ok m := by
  match hI : s1.integrator with
  | none => rw [hI] at hm; simp at hm
  | some intg =>
    obtain ⟨d2, ms⟩ := intg
    rw [hI] at hm
    simp only [Option.map_some'] at hm
    have hms : ms = [m] := Option.some_injective _ hm
    subst hms
    unfold Simulation.method
    rw [run_integrator, hI]

/-- C10: reading the method accessor on an engine with no integrator raises
RuntimeError; after a run call completes (each run function attaches its
method via set_integrator_method before stepping), the accessor returns the
single currently attached method without error. -/
theorem claim_C10_method_accessor (s t : Simulation) (h0 : s.integrator = none)
    (h1 : t.oneMethod = true) (n per : ℕ) (kT : KTValue) (tau pr taup g : ℚ)
    (cpl : String) (dof : List Bool) (ra bl : Bool) (fb : Box) :
    s.method = .error .runtimeError ∧
    (∀ t1, t.run_shrink n per kT tau fb bl = .ok t1 →
      t1.method = .ok (.NVT tau kT)) ∧
    (∀ t1, t.run_NVT n kT tau bl = .ok t1 → t1.method = .ok (.NVT tau kT)) ∧
    (∀ t1, t.run_NPT n kT pr tau taup cpl dof ra g bl = .ok t1 →
      t1.method = .ok (.NPT kT pr tau taup cpl dof ra g)) ∧
    (∀ t1, t.run_NVE n = .ok t1 → t1.method = .ok .NVE) := by
  refine ⟨?_, ?_, ?_, ?_, ?_⟩
  · unfold Simulation.method
    rw [h0]
  · intro t1 hrun
    unfold Simulation.run_shrink at hrun
    dsimp only at hrun
    obtain ⟨u, hset, hm, _⟩ := set_integrator_method_ok
      { t with updaters := t.updaters ++
          [{ box1 := t.box, box2 := fb,
             variant := { A := 0, B := 1, t_start := t.timestep, t_ramp := n },
             trigger := per }] } h1 (.NVT tau kT)
    rw [hset] at hrun
    cases hrun
    exact method_of_single u _ hm n
  · intro t1 hrun
    unfold Simulation.run_NVT at hrun
    obtain ⟨u, hset, hm, _⟩ := set_integrator_method_ok t h1 (.NVT tau kT)
    rw [hset] at hrun
    cases hrun
    exact method_of_single u _ hm n
  · intro t1 hrun
    unfold Simulation.run_NPT at hrun
    obtain ⟨u, hset, hm, _⟩ := set_integrator_method_ok t h1
      (.NPT kT pr tau taup cpl dof ra g)
    rw [hset] at hrun
    cases hrun
    exact method_of_single u _ hm n
  · intro t1 hrun
    unfold Simulation.run_NVE at hrun
    obtain ⟨u, hset, hm, _⟩ := set_integrator_method_ok t h1 .NVE
    rw [hset] at hrun
    cases hrun
    exact method_of_single u _ hm n

/-- C10 witness: the accessor behaviour instantiated on a concrete fresh
engine before and after a concrete run_NVT call. -/
theorem claim_C10_method_accessor_witness :
    freshSim.method = .error .runtimeError ∧
    (∀ t1, freshSim.run_shrink 5 2 (.const 1) 1 { Lx := 10, Ly := 10, Lz := 10 } true
        = .ok t1 → t1.method = .ok (.NVT 1 (.const 1))) ∧
    (∀ t1, freshSim.run_NVT 5 (.const 1) 1 true = .ok t1 →
      t1.method = .ok (.NVT 1 (.const 1))) ∧
    (∀ t1, freshSim.run_NPT 5 (.const 1) 1 1 1 "xyz" [] false 0 true = .ok t1 →
      t1.method = .ok (.NPT (.const 1) 1 1 1 "xyz" [] false 0)) ∧
    (∀ t1, freshSim.run_NVE 5 = .ok t1 → t1.method = .ok .NVE) :=
  claim_C10_method_accessor freshSim freshSim rfl (by decide) 5 2 (.const 1) 1 1 1 0
    "xyz" [] false true { Lx := 10, Ly := 10, Lz := 10 }

theorem foldlMax_mem {α : Type} (key : α → ℚ) (xs : List α) :
    ∀ x, xs.foldl (fun acc y => if key acc < key y then y else acc) x ∈ x :: xs := by
  induction xs with
  | nil => intro x; simp [List.foldl]
  | cons y ys ih =>
    intro x
    simp only [List.foldl]
    by_cases h : key x < key y
    · rw [if_pos h]
      have := ih y
      rw [List.mem_cons] at this ⊢
      rcases this with h1 | h1
      · exact Or.inr (by rw [List.mem_cons]; exact Or.inl h1)
      · exact Or.inr (by rw [List.mem_cons]; exact Or.inr h1)
    · rw [if_neg h]
      have := ih x
      rw [List.mem_cons] at this ⊢
      rcases this with h1 | h1
      · exact Or.inl h1
      · exact Or.inr (by rw [List.mem_cons]; exact Or.inr h1)

theorem foldlMax_ge {α : Type} (key : α → ℚ) (xs : List α) :
    ∀ x, ∀ b ∈ x :: xs,
      key b ≤ key (xs.foldl (fun acc y => if key acc < key y then y else acc) x) := by
  induction xs with
  | nil =>
    intro x b hb
    rw [List.mem_singleton] at hb
    subst hb
    exact le_refl _
  | cons y ys ih =>
    intro x b hb
    simp only [List.foldl]
    rw [List.mem_cons, List.mem_cons] at hb
    by_cases h : key x < key y
    · rw [if_pos h]
      rcases hb with h1 | h1 | h1
      · rw [h1]
        exact le_trans (le_of_lt h) (ih y y (List.mem_cons_self y ys))
      · rw [h1]
        exact ih y y (List.mem_cons_self y ys)
      · exact ih y b (List.mem_cons_of_mem y h1)
    · rw [if_neg h]
      rcases hb with h1 | h1 | h1
      · rw [h1]
        exact ih x x (List.mem_cons_self x ys)
      · rw [h1]
        exact le_trans (le_of_not_lt h) (ih x x (List.mem_cons_self x ys))
      · exact ih x b (List.mem_cons_of_mem x h1)

theorem pyMaxBy_spec {α : Type} (key : α → ℚ) (l : List α) (hl : l ≠ []) :
    ∃ a, pyMaxBy key l = some a ∧ a ∈ l ∧ ∀ b ∈ l, key b ≤ key a := by
  match l, hl with
  | x :: xs, _ =>
    exact ⟨_, rfl, foldlMax_mem key xs x, foldlMax_ge key xs x⟩

/-- C7: the reference mass is the maximum atomic mass over all atoms, the
reference energy is the epsilon of a maximal-epsilon tuple of the
de-duplicated (type, epsilon, sigma) set, and the reference distance is the
sigma of a maximal-sigma tuple of that same set, chosen independently of the
energy choice. -/
theorem claim_C7_reference_units (atoms : List PAtom) (h : atoms ≠ []) :
    (∃ a, a ∈ atoms ∧ ref_mass atoms = some a.mass ∧
      ∀ b ∈ atoms, b.mass ≤ a.mass) ∧
    (∃ p, p ∈ pair_coeffs atoms ∧ ref_energy atoms = some p.2.1 ∧
      ∀ q ∈ pair_coeffs atoms, q.2.1 ≤ p.2.1) ∧
    (∃ p, p ∈ pair_coeffs atoms ∧ ref_distance atoms = some p.2.2 ∧
      ∀ q ∈ pair_coeffs atoms, q.2.2 ≤ p.2.2) := by
  have hmap : atoms.map PAtom.mass ≠ [] := by
    simpa [List.map_eq_nil_iff] using h
  have hpc : pair_coeffs atoms ≠ [] := by
    unfold pair_coeffs
    rw [ne_eq, List.dedup_eq_nil, List.map_eq_nil_iff]
    exact h
  refine ⟨?_, ?_, ?_⟩
  · obtain ⟨v, hv, hmem, hmax⟩ := pyMaxBy_spec id (atoms.map PAtom.mass) hmap
    rw [List.mem_map] at hmem
    obtain ⟨a, ha, hav⟩ := hmem
    refine ⟨a, ha, ?_, ?_⟩
    · unfold ref_mass
      rw [hv, hav]
    · intro b hb
      rw [hav]
      exact hmax _ (List.mem_map_of_mem PAtom.mass hb)
  · obtain ⟨p, hp, hmem, hmax⟩ := pyMaxBy_spec (fun q => q.2.1) (pair_coeffs atoms) hpc
    refine ⟨p, hmem, ?_, hmax⟩
    unfold ref_energy
    rw [hp]
    rfl
  · obtain ⟨p, hp, hmem, hmax⟩ := pyMaxBy_spec (fun q => q.2.2) (pair_coeffs atoms) hpc
    refine ⟨p, hmem, ?_, hmax⟩
    unfold ref_distance
    rw [hp]
    rfl

/-- C7 witness: a concrete two-atom system in which the maximal-epsilon tuple
and the maximal-sigma tuple are different tuples, showing the two selections
are independent. -/
theorem claim_C7_reference_units_witness :
    (∃ a, a ∈ refAtoms ∧ ref_mass refAtoms = some a.mass ∧
      ∀ b ∈ refAtoms, b.mass ≤ a.mass) ∧
    (∃ p, p ∈ pair_coeffs refAtoms ∧ ref_energy refAtoms = some p.2.1 ∧
      ∀ q ∈ pair_coeffs refAtoms, q.2.1 ≤ p.2.1) ∧
    (∃ p, p ∈ pair_coeffs refAtoms ∧ ref_distance refAtoms = some p.2.2 ∧
      ∀ q ∈ pair_coeffs refAtoms, q.2.2 ≤ p.2.2) :=
  claim_C7_reference_units refAtoms (by decide)

theorem run_add (s : Simulation) (a b : ℕ) : s.run (a + b) = (s.run a).run b := by
  induction a generalizing s with
  | zero => rw [Nat.zero_add]; rfl
  | succ k ih =>
    rw [Nat.succ_add]
    show s.stepOnce.run (k + b) = _
    exact ih s.stepOnce

theorem applyUpdaters_nofire (t : ℕ) (us : List BoxResize) (b : Box)
    (h : ∀ u ∈ us, t % u.trigger ≠ 0) : applyUpdaters t us b = b := by
  induction us with
  | nil => rfl
  | cons u us ih =>
    unfold applyUpdaters at ih ⊢
    simp only [List.foldl]
    rw [if_neg (h u (List.mem_cons_self u us))]
    exact ih (fun v hv => h v (List.mem_cons_of_mem u hv))

theorem applyUpdaters_const (t : ℕ) (us : List BoxResize) (b : Box)
    (h : ∀ u ∈ us, u.boxAt t = b) : applyUpdaters t us b = b := by
  induction us with
  | nil => rfl
  | cons u us ih =>
    unfold applyUpdaters at ih ⊢
    simp only [List.foldl]
    by_cases hf : t % u.trigger = 0
    · rw [if_pos hf, h u (List.mem_cons_self u us)]
      exact ih (fun v hv => h v (List.mem_cons_of_mem u hv))
    · rw [if_neg hf]
      exact ih (fun v hv => h v (List.mem_cons_of_mem u hv))

theorem boxAt_expired (u : BoxResize) (t : ℕ) (hB : u.variant.B = 1)
    (h : u.variant.t_start + u.variant.t_ramp ≤ t) : u.boxAt t = u.box2 := by
  rcases u with ⟨⟨a1, a2, a3⟩, ⟨c1, c2, c3⟩, v, tr⟩
  simp only at hB h
  unfold BoxResize.boxAt Ramp.value
  simp only
  rw [if_pos h, hB]
  simp only [Box.mk.injEq]
  refine ⟨by ring, by ring, by ring⟩

theorem run_box_nofire (s : Simulation) (n : ℕ)
    (h : ∀ u ∈ s.updaters, ∀ t, s.timestep < t → t ≤ s.timestep + n →
      t % u.trigger ≠ 0) :
    (s.run n).box = s.box := by
  induction n generalizing s with
  | zero => rfl
  | succ k ih =>
    show (s.stepOnce.run k).box = _
    have hbox : s.stepOnce.box = s.box := by
      show applyUpdaters (s.timestep + 1) s.updaters s.box = s.box
      refine applyUpdaters_nofire _ _ _ (fun u hu => ?_)
      exact h u hu (s.timestep + 1) (by omega) (by omega)
    have hrest := ih s.stepOnce (by
      intro u hu t h1 h2
      have h1' : s.timestep < t := by
        show s.timestep < t
        have : s.stepOnce.timestep = s.timestep + 1 := rfl
        omega
      have h2' : t ≤ s.timestep + (k + 1) := by
        have : s.stepOnce.timestep = s.timestep + 1 := rfl
        omega
      exact h u hu t h1' h2')
    rw [hrest, hbox]

theorem run_box_expired (s : Simulation) (n : ℕ)
    (h : ∀ u ∈ s.updaters, u.variant.B = 1 ∧ u.box2 = s.box ∧
      u.variant.t_start + u.variant.t_ramp ≤ s.timestep) :
    (s.run n).box = s.box := by
  induction n generalizing s with
  | zero => rfl
  | succ k ih =>
    show (s.stepOnce.run k).box = _
    have hbox : s.stepOnce.box = s.box := by
      show applyUpdaters (s.timestep + 1) s.updaters s.box = s.box
      refine applyUpdaters_const _ _ _ (fun u hu => ?_)
      obtain ⟨hB, hb2, hexp⟩ := h u hu
      rw [boxAt_expired u _ hB (by omega)]
      exact hb2
    have hrest := ih s.stepOnce (by
      intro u hu
      obtain ⟨hB, hb2, hexp⟩ := h u hu
      refine ⟨hB, ?_, ?_⟩
      · rw [hb2]; exact hbox.symm
      · have : s.stepOnce.timestep = s.timestep + 1 := rfl
        omega)
    rw [hrest, hbox]

theorem step_fire_singleton (s : Simulation) (u : BoxResize)
    (hu : s.updaters = [u]) (hfire : (s.timestep + 1) % u.trigger = 0)
    (hB : u.variant.B = 1)
    (hexp : u.variant.t_start + u.variant.t_ramp ≤ s.timestep + 1) :
    s.stepOnce.box = u.box2 := by
  show applyUpdaters (s.timestep + 1) s.updaters s.box = u.box2
  rw [hu]
  unfold applyUpdaters
  simp only [List.foldl]
  rw [if_pos hfire, boxAt_expired u _ hB hexp]

theorem shrink5_run :
    freshSim.run_shrink 5 10 (.const 1) 1 { Lx := 10, Ly := 10, Lz := 10 } true
      = .ok (shrunk5.run 5) := rfl

theorem shrunk5_box : (shrunk5.run 5).box = { Lx := 20, Ly := 20, Lz := 20 } := by
  rw [run_box_nofire]
  · rfl
  · intro u hu t h1 h2
    rw [show shrunk5.updaters = [resize5] from rfl, List.mem_singleton] at hu
    subst hu
    have h1a : 0 < t := h1
    have h2a : t ≤ 0 + 5 := h2
    show ¬ t % 10 = 0
    omega

theorem shrunk5_one : (shrunk5.run 5).oneMethod = true := by
  unfold Simulation.oneMethod
  rw [run_integrator]
  rfl

theorem shrink1000_run :
    freshSim.run_shrink 1000 10 (.const 1) 1 { Lx := 10, Ly := 10, Lz := 10 } true
      = .ok (shrunk1000.run 1000) := rfl

theorem shrunk1000_split : shrunk1000.run 1000 = (shrunk1000.run 999).stepOnce :=
  run_add shrunk1000 999 1

theorem shrunk1000_ts999 : (shrunk1000.run 999).timestep = 999 :=
  run_timestep shrunk1000 999

theorem shrunk1000_upd999 : (shrunk1000.run 999).updaters = [resize1000] :=
  run_updaters shrunk1000 999

theorem shrunk1000_upd : (shrunk1000.run 1000).updaters = [resize1000] :=
  run_updaters shrunk1000 1000

theorem shrunk1000_box : (shrunk1000.run 1000).box = { Lx := 10, Ly := 10, Lz := 10 } := by
  rw [shrunk1000_split, step_fire_singleton (shrunk1000.run 999) resize1000
    shrunk1000_upd999]
  case hfire => rw [shrunk1000_ts999]; rfl
  case hB => rfl
  case hexp => rw [shrunk1000_ts999]; decide
  rfl

theorem shrunk1000_ts : (shrunk1000.run 1000).timestep = 1000 :=
  run_timestep shrunk1000 1000

theorem shrunk1000_one : (shrunk1000.run 1000).oneMethod = true := by
  unfold Simulation.oneMethod
  rw [run_integrator]
  rfl

/-- C9 counterexample: runShrink(steps=5, period=10) from timestep 0 ends with
the box still at its initial value (no trigger fired during the stage), and
the attached box-resize schedule then rewrites the box to finalBoxLengths at
timestep 10, during the subsequent run_NVT — a box mutation after the shrink
stage's steps, which the claim says never happens. -/
theorem claim_C9_counterexample :
    ∃ s1 s2,
      freshSim.run_shrink 5 10 (.const 1) 1 { Lx := 10, Ly := 10, Lz := 10 } true
        = .ok s1 ∧
      s1.box = { Lx := 20, Ly := 20, Lz := 20 } ∧
      s1.run_NVT 10 (.const 1) 1 true = .ok s2 ∧
      s2.box = { Lx := 10, Ly := 10, Lz := 10 } ∧
      s1.box ≠ s2.box := by
  obtain ⟨s3, hset, hm3, hts3, hbox3, hupd3, hone3⟩ :=
    set_integrator_method_ok (shrunk5.run 5) shrunk5_one (.NVT 1 (.const 1))
  have hNVT : (shrunk5.run 5).run_NVT 10 (.const 1) 1 true = .ok (s3.run 10) := by
    unfold Simulation.run_NVT
    rw [hset]
    rfl
  have hsplit : s3.run 10 = ((s3.run 4).stepOnce).run 5 := run_add s3 4 6
  have hts4 : (s3.run 4).timestep = 9 := by
    rw [run_timestep, hts3, run_timestep]
    rfl
  have hupd4 : (s3.run 4).updaters = [resize5] := by
    rw [run_updaters, hupd3, run_updaters]
    rfl
  have hbox4 : (s3.run 4).box = { Lx := 20, Ly := 20, Lz := 20 } := by
    rw [run_box_nofire, hbox3, shrunk5_box]
    intro u hu t h1 h2
    rw [hupd3, run_updaters, show shrunk5.updaters = [resize5] from rfl,
      List.mem_singleton] at hu
    subst hu
    rw [hts3, run_timestep] at h1 h2
    have h1a : 0 + 5 < t := h1
    have h2a : t ≤ 0 + 5 + 4 := h2
    show ¬ t % 10 = 0
    omega
  have hstep : ((s3.run 4).stepOnce).box = { Lx := 10, Ly := 10, Lz := 10 } := by
    rw [step_fire_singleton (s3.run 4) resize5 hupd4]
    case hfire => rw [hts4]; rfl
    case hB => rfl
    case hexp => rw [hts4]; decide
    rfl
  have htsY : ((s3.run 4).stepOnce).timestep = 10 := by
    show (s3.run 4).timestep + 1 = 10
    rw [hts4]
  have hbox2 : (s3.run 10).box = { Lx := 10, Ly := 10, Lz := 10 } := by
    rw [hsplit, run_box_expired, hstep]
    intro v hv
    rw [show ((s3.run 4).stepOnce).updaters = (s3.run 4).updaters from rfl,
      hupd4, List.mem_singleton] at hv
    subst hv
    refine ⟨rfl, ?_, ?_⟩
    · rw [hstep]
      rfl
    · rw [htsY]
      decide
  refine ⟨shrunk5.run 5, s3.run 10, shrink5_run, shrunk5_box, hNVT, hbox2, ?_⟩
  intro hcontra
  rw [shrunk5_box, hbox2] at hcontra
  exact absurd (congrArg Box.Lx hcontra) (by norm_num)

/-- C9 amended: the expired schedule is idempotent rather than inert — past
the ramp duration every firing writes finalBoxLengths (for the B = 1 ramps
that run_shrink installs), so the box changes at most once after the shrink
stage: a catch-up write at the first post-expiry trigger if the ramp end was
not itself hit by a trigger.  When a trigger does fire at the ramp end
(period divides the final shrink timestep, as in runShrink(steps=1000,
period=10) from timestep 0), the box already equals finalBoxLengths when
runShrink returns and a subsequent run_NVT of 500 steps leaves it fixed, with
final timestep 1500. -/
theorem claim_C9_amended (u : BoxResize) (t : ℕ) (hB : u.variant.B = 1)
    (hexp : u.variant.t_start + u.variant.t_ramp ≤ t) :
    u.boxAt t = u.box2 ∧
    (∀ s1, freshSim.run_shrink 1000 10 (.const 1) 1 { Lx := 10, Ly := 10, Lz := 10 }
        true = .ok s1 → s1.box = { Lx := 10, Ly := 10, Lz := 10 } ∧
        s1.timestep = 1000) ∧
    (∃ s2, (freshSim.run_shrink 1000 10 (.const 1) 1 { Lx := 10, Ly := 10, Lz := 10 }
        true).bind (fun s1 => s1.run_NVT 500 (.const 1) 1 true) = .ok s2 ∧
      s2.box = { Lx := 10, Ly := 10, Lz := 10 } ∧ s2.timestep = 1500) := by
  obtain ⟨s3, hset, hm3, hts3, hbox3, hupd3, hone3⟩ :=
    set_integrator_method_ok (shrunk1000.run 1000) shrunk1000_one (.NVT 1 (.const 1))
  refine ⟨boxAt_expired u t hB hexp, ?_, ?_⟩
  · intro s1 h1
    rw [shrink1000_run, Except.ok.injEq] at h1
    subst h1
    exact ⟨shrunk1000_box, shrunk1000_ts⟩
  · refine ⟨s3.run 500, ?_, ?_, ?_⟩
    · rw [shrink1000_run]
      show (shrunk1000.run 1000).run_NVT 500 (.const 1) 1 true = .ok (s3.run 500)
      unfold Simulation.run_NVT
      rw [hset]
      rfl
    · rw [run_box_expired, hbox3, shrunk1000_box]
      intro v hv
      rw [hupd3, shrunk1000_upd, List.mem_singleton] at hv
      subst hv
      refine ⟨rfl, ?_, ?_⟩
      · rw [hbox3, shrunk1000_box]
        rfl
      · rw [hts3, shrunk1000_ts]
        decide
    · rw [run_timestep, hts3, shrunk1000_ts]

/-- C9 amended witness: the past-expiry idempotence instantiated on a
concrete resizer and timestep. -/
theorem claim_C9_amended_witness :
    resize5.boxAt 12 = ({ Lx := 10, Ly := 10, Lz := 10 } : Box) ∧
    (∀ s1, freshSim.run_shrink 1000 10 (.const 1) 1 { Lx := 10, Ly := 10, Lz := 10 }
        true = .ok s1 → s1.box = { Lx := 10, Ly := 10, Lz := 10 } ∧
        s1.timestep = 1000) ∧
    (∃ s2, (freshSim.run_shrink 1000 10 (.const 1) 1 { Lx := 10, Ly := 10, Lz := 10 }
        true).bind (fun s1 => s1.run_NVT 500 (.const 1) 1 true) = .ok s2 ∧
      s2.box = { Lx := 10, Ly := 10, Lz := 10 } ∧ s2.timestep = 1500) :=
  claim_C9_amended resize5 12 rfl (by decide)

theorem calculate_L_none (mass density : ℝ) (hd0 : density ≠ 0) :
    calculate_L mass density none =
      .ok ((mass * 1.66054e-24 / density) ^ ((1 : ℝ) / 3) * 1e7) := by
  unfold calculate_L
  rw [if_neg hd0]

theorem set_target_box_none (mass density : ℝ) (hd0 : density ≠ 0) :
    set_target_box mass density none none none =
      .ok ((mass * 1.66054e-24 / density) ^ ((1 : ℝ) / 3) * 1e7,
        (mass * 1.66054e-24 / density) ^ ((1 : ℝ) / 3) * 1e7,
        (mass * 1.66054e-24 / density) ^ ((1 : ℝ) / 3) * 1e7) := by
  unfold set_target_box
  rw [if_pos ⟨rfl, rfl, rfl⟩, calculate_L_none mass density hd0]
  rfl

theorem calculate_L_single (mass density f : ℝ) (hd0 : density ≠ 0) :
    calculate_L mass density (some [f]) =
      .ok ((mass * 1.66054e-24 / density / f) ^ ((1 : ℝ) / 2) * 1e7) := by
  have h1 : calculate_L mass density (some [f]) =
      .ok ((mass * 1.66054e-24 / density / [f].prod) ^ ((1 : ℝ) / 2) * 1e7) := by
    unfold calculate_L
    rw [if_neg hd0]
    rfl
  rw [h1, List.prod_singleton]

theorem set_target_box_x (mass density fx : ℝ) (hd0 : density ≠ 0)
    (hfx : fx ≠ 0) :
    set_target_box mass density (some fx) none none =
      .ok (fx, (mass * 1.66054e-24 / density / (fx * 1e-7)) ^ ((1 : ℝ) / 2) * 1e7,
        (mass * 1.66054e-24 / density / (fx * 1e-7)) ^ ((1 : ℝ) / 2) * 1e7) := by
  unfold set_target_box
  rw [if_neg (fun h => hfx h.1)]
  show (calculate_L mass density (some [fx * 1e-7])).map _ = _
  rw [calculate_L_single mass density (fx * 1e-7) hd0]
  rfl

theorem cbrt_cube (A : ℝ) (hA : 0 ≤ A) : (A ^ ((1 : ℝ) / 3)) ^ (3 : ℕ) = A := by
  rw [← Real.rpow_natCast (A ^ ((1 : ℝ) / 3)) 3, ← Real.rpow_mul hA]
  norm_num

theorem sqrt_sq (A : ℝ) (hA : 0 ≤ A) : (A ^ ((1 : ℝ) / 2)) ^ (2 : ℕ) = A := by
  rw [← Real.rpow_natCast (A ^ ((1 : ℝ) / 2)) 2, ← Real.rpow_mul hA]
  norm_num

/-- C3: for positive mass and density the unconstrained solve returns a cube,
and the cube's volume measured in the centimeter solve units (edge divided by
the 1e7 conversion, i.e. multiplied by 1e-7) equals mass-in-grams (amu ×
1.66054e-24) divided by density. -/
theorem claim_C3_cubic_box (mass density : ℝ) (hm : 0 < mass) (hd : 0 < density) :
    ∃ L, set_target_box mass density none none none = .ok (L, L, L) ∧ 0 < L ∧
      (L * 1e-7) ^ (3 : ℕ) = mass * 1.66054e-24 / density := by
  have hd0 : density ≠ 0 := ne_of_gt hd
  have hA : (0 : ℝ) < mass * 1.66054e-24 / density := by positivity
  refine ⟨(mass * 1.66054e-24 / density) ^ ((1 : ℝ) / 3) * 1e7,
    set_target_box_none mass density hd0, by positivity, ?_⟩
  have hcancel : ((mass * 1.66054e-24 / density) ^ ((1 : ℝ) / 3) * 1e7 * 1e-7)
      = (mass * 1.66054e-24 / density) ^ ((1 : ℝ) / 3) := by
    rw [mul_assoc]
    norm_num
  rw [hcancel, cbrt_cube _ hA.le]

/-- C3 witness: the cubic solve at mass 1 amu, density 1. -/
theorem claim_C3_cubic_box_witness :
    ∃ L, set_target_box 1 1 none none none = .ok (L, L, L) ∧ 0 < L ∧
      (L * 1e-7) ^ (3 : ℕ) = 1 * 1.66054e-24 / 1 :=
  claim_C3_cubic_box 1 1 one_pos one_pos

/-- C4: with one positive fixed edge, the two solved edges are equal, each the
square root of volume over the fixed cm edge (scaled back by 1e7), and the
product of the three returned edges equals the product of the edges the
unconstrained cubic solve would return for the same mass and density. -/
theorem claim_C4_one_fixed (mass density fx : ℝ) (hm : 0 < mass)
    (hd : 0 < density) (hfx : 0 < fx) :
    ∃ L Lc,
      set_target_box mass density (some fx) none none = .ok (fx, L, L) ∧
      set_target_box mass density none none none = .ok (Lc, Lc, Lc) ∧
      L = (mass * 1.66054e-24 / density / (fx * 1e-7)) ^ ((1 : ℝ) / 2) * 1e7 ∧
      fx * L * L = Lc * Lc * Lc := by
  have hd0 : density ≠ 0 := ne_of_gt hd
  have hA : (0 : ℝ) < mass * 1.66054e-24 / density := by positivity
  have hf7 : (0 : ℝ) < fx * 1e-7 := by positivity
  refine ⟨_, _, set_target_box_x mass density fx hd0 (ne_of_gt hfx),
    set_target_box_none mass density hd0, rfl, ?_⟩
  have hsq : ((mass * 1.66054e-24 / density / (fx * 1e-7)) ^ ((1 : ℝ) / 2)) ^ (2 : ℕ)
      = mass * 1.66054e-24 / density / (fx * 1e-7) :=
    sqrt_sq _ (by positivity)
  have hcube : ((mass * 1.66054e-24 / density) ^ ((1 : ℝ) / 3)) ^ (3 : ℕ)
      = mass * 1.66054e-24 / density :=
    cbrt_cube _ hA.le
  have e1 : fx * ((mass * 1.66054e-24 / density / (fx * 1e-7)) ^ ((1 : ℝ) / 2) * 1e7)
        * ((mass * 1.66054e-24 / density / (fx * 1e-7)) ^ ((1 : ℝ) / 2) * 1e7)
      = ((mass * 1.66054e-24 / density / (fx * 1e-7)) ^ ((1 : ℝ) / 2)) ^ (2 : ℕ)
        * (fx * (1e7 * 1e7)) := by
    ring
  have e2 : (mass * 1.66054e-24 / density) ^ ((1 : ℝ) / 3) * 1e7
        * ((mass * 1.66054e-24 / density) ^ ((1 : ℝ) / 3) * 1e7)
        * ((mass * 1.66054e-24 / density) ^ ((1 : ℝ) / 3) * 1e7)
      = ((mass * 1.66054e-24 / density) ^ ((1 : ℝ) / 3)) ^ (3 : ℕ)
        * (1e7 * 1e7 * 1e7) := by
    ring
  rw [e1, e2, hsq, hcube]
  rw [div_mul_eq_mul_div, div_eq_iff (ne_of_gt hf7)]
  ring_nf

/-- C4 witness: the one-fixed-edge solve at mass 1, density 1, fixed edge 1. -/
theorem claim_C4_one_fixed_witness :
    ∃ L Lc,
      set_target_box 1 1 (some 1) none none = .ok (1, L, L) ∧
      set_target_box 1 1 none none none = .ok (Lc, Lc, Lc) ∧
      L = (1 * 1.66054e-24 / 1 / (1 * 1e-7)) ^ ((1 : ℝ) / 2) * 1e7 ∧
      1 * L * L = Lc * Lc * Lc :=
  claim_C4_one_fixed 1 1 1 one_pos one_pos one_pos

/-- C5 counterexample: with total mass 0 and density 1 the solve does not fail
at all — no InvalidConstraintError exists anywhere in the code — and returns
the non-positive edge lengths (0, 0, 0). -/
theorem claim_C5_counterexample :
    set_target_box 0 1 none none none = .ok (0, 0, 0) := by
  rw [set_target_box_none 0 1 one_ne_zero]
  have h0 : (0 : ℝ) * 1.66054e-24 / 1 = 0 := by norm_num
  rw [h0, Real.zero_rpow (by norm_num : (1 : ℝ) / 3 ≠ 0), zero_mul]

/-- C5 amended: the box solve validates nothing (mass 0 is accepted and
returns zero edges; density 0 raises ZeroDivisionError rather than
InvalidConstraintError, which does not exist in the code); for positive mass,
positive density and a positive fixed edge, every returned edge length is
positive. -/
theorem claim_C5_amended (mass density : ℝ) (hm : 0 < mass) (hd : 0 < density) :
    (∃ L, set_target_box mass density none none none = .ok (L, L, L) ∧ 0 < L) ∧
    (∀ fx, 0 < fx →
      ∃ L, set_target_box mass density (some fx) none none = .ok (fx, L, L) ∧
        0 < L) ∧
    calculate_L mass 0 none = .error .zeroDivisionError := by
  have hd0 : density ≠ 0 := ne_of_gt hd
  refine ⟨⟨_, set_target_box_none mass density hd0, by positivity⟩, ?_, ?_⟩
  · intro fx hfx
    exact ⟨_, set_target_box_x mass density fx hd0 (ne_of_gt hfx), by positivity⟩
  · unfold calculate_L
    rw [if_pos rfl]

/-- C5 amended witness: the positivity guarantee at mass 1, density 1 and
fixed edge instantiable at any positive value. -/
theorem claim_C5_amended_witness :
    (∃ L, set_target_box 1 1 none none none = .ok (L, L, L) ∧ 0 < L) ∧
    (∀ fx, 0 < fx →
      ∃ L, set_target_box 1 1 (some fx) none none = .ok (fx, L, L) ∧ 0 < L) ∧
    calculate_L 1 0 none = .error .zeroDivisionError :=
  claim_C5_amended 1 1 one_pos one_pos

theorem foldlM_foldHydrogen_spec (bonds : List (ℕ × ℕ)) (orig : List TAtom) :
    ∀ (is : List ℕ) (acc : List TAtom),
      acc.length = orig.length →
      (∀ i ∈ is, ∃ j, (bond_partners bonds i).head? = some j ∧
        ∃ b, orig[j]? = some b ∧ b.element ≠ 1) →
      (∀ i ∈ is, ∃ h, orig[i]? = some h ∧ h.element = 1) →
      (∀ (k : ℕ) (a a' : TAtom), orig[k]? = some a → acc[k]? = some a' →
        a'.element = a.element) →
      (∀ (k : ℕ) (a : TAtom), orig[k]? = some a → a.element = 1 →
        acc[k]? = some a) →
      ∃ res, is.foldlM (foldHydrogen bonds) acc = .ok res ∧
        res.length = orig.length ∧
        ∀ (k : ℕ) (a : TAtom), acc[k]? = some a →
          res[k]? = some
            { element := a.element,
              mass := a.mass + sumMassInto bonds orig is k,
              charge := a.charge + sumChargeInto bonds orig is k } := by
  intro is
  induction is with
  | nil =>
    intro acc hlen hpart hsrc helem hHfix
    refine ⟨acc, rfl, hlen, ?_⟩
    intro k a hk
    rw [hk]
    simp [sumMassInto, sumChargeInto]
  | cons i is ih =>
    intro acc hlen hpart hsrc helem hHfix
    obtain ⟨j, hj, b, hb, hbne⟩ := hpart i (List.mem_cons_self i is)
    obtain ⟨h0, hh0, hh0e⟩ := hsrc i (List.mem_cons_self i is)
    have hacci : acc[i]? = some h0 := hHfix i h0 hh0 hh0e
    have hjlt : j < orig.length := (List.getElem?_eq_some.mp hb).choose
    have hjlt2 : j < acc.length := by omega
    have hb' : acc[j]? = some acc[j] := List.getElem?_eq_getElem hjlt2
    have hb'e : (acc[j]).element = b.element := helem j b (acc[j]) hb hb'
    set anew : TAtom :=
      { acc[j] with mass := (acc[j]).mass + h0.mass,
                    charge := (acc[j]).charge + h0.charge } with hanew
    have hstep : foldHydrogen bonds acc i = .ok (acc.set j anew) := by
      unfold foldHydrogen
      rw [hj]
      dsimp only
      rw [hacci, hb']
    have hlen2 : (acc.set j anew).length = orig.length := by
      rw [List.length_set]
      exact hlen
    have helem2 : ∀ (k : ℕ) (a a' : TAtom), orig[k]? = some a →
        (acc.set j anew)[k]? = some a' → a'.element = a.element := by
      intro k a a' hka hka'
      by_cases hkj : j = k
      · subst hkj
        rw [List.getElem?_set_eq_of_lt _ hjlt2] at hka'
        have ha' := Option.some.inj hka'
        have hab : b = a := Option.some.inj (hb.symm.trans hka)
        rw [← ha', ← hab, hanew]
        exact hb'e
      · rw [List.getElem?_set_ne hkj] at hka'
        exact helem k a a' hka hka'
    have hHfix2 : ∀ (k : ℕ) (a : TAtom), orig[k]? = some a → a.element = 1 →
        (acc.set j anew)[k]? = some a := by
      intro k a hka hae
      have hkj : j ≠ k := by
        intro hjk
        subst hjk
        have hab : b = a := Option.some.inj (hb.symm.trans hka)
        rw [hab] at hbne
        exact hbne hae
      rw [List.getElem?_set_ne hkj]
      exact hHfix k a hka hae
    obtain ⟨res, hres, hreslen, hresspec⟩ := ih (acc.set j anew) hlen2
      (fun i' hi' => hpart i' (List.mem_cons_of_mem i hi'))
      (fun i' hi' => hsrc i' (List.mem_cons_of_mem i hi'))
      helem2 hHfix2
    refine ⟨res, ?_, hreslen, ?_⟩
    · rw [List.foldlM_cons, hstep]
      exact hres
    · intro k a hka
      have hmassi : massAt orig i = h0.mass := by
        unfold massAt
        rw [hh0]
      have hchargei : chargeAt orig i = h0.charge := by
        unfold chargeAt
        rw [hh0]
      by_cases hkj : j = k
      · subst hkj
        have hab' : a = acc[j] := Option.some.inj (hb'.symm.trans hka).symm
        have hacc2j : (acc.set j anew)[j]? = some anew :=
          List.getElem?_set_eq_of_lt _ hjlt2
        rw [hresspec j _ hacc2j]
        have hsum : sumMassInto bonds orig (i :: is) j =
            h0.mass + sumMassInto bonds orig is j := by
          unfold sumMassInto
          rw [List.filter_cons, if_pos (by rw [hj]; simp), List.map_cons,
            List.sum_cons, hmassi]
        have hsumc : sumChargeInto bonds orig (i :: is) j =
            h0.charge + sumChargeInto bonds orig is j := by
          unfold sumChargeInto
          rw [List.filter_cons, if_pos (by rw [hj]; simp), List.map_cons,
            List.sum_cons, hchargei]
        rw [hanew, Option.some.injEq, TAtom.mk.injEq, hab']
        refine ⟨rfl, ?_, ?_⟩
        · rw [hsum]
          ring
        · rw [hsumc]
          ring
      · have hacc2k : (acc.set j anew)[k]? = some a := by
          rw [List.getElem?_set_ne hkj]
          exact hka
        rw [hresspec k a hacc2k]
        have hsum : sumMassInto bonds orig (i :: is) k =
            sumMassInto bonds orig is k := by
          unfold sumMassInto
          rw [List.filter_cons, if_neg (by rw [hj]; simp; omega)]
        have hsumc : sumChargeInto bonds orig (i :: is) k =
            sumChargeInto bonds orig is k := by
          unfold sumChargeInto
          rw [List.filter_cons, if_neg (by rw [hj]; simp; omega)]
        rw [hsum, hsumc]

theorem apply_forcefield_strip_spec (s : Structure)
    (hpart : ∀ i ∈ hydrogenIdx s, ∃ j, (bond_partners s.bonds i).head? = some j ∧
      ∃ b, s.atoms[j]? = some b ∧ b.element ≠ 1) :
    apply_forcefield_strip s = .ok (strippedAtoms s) := by
  have hsrc : ∀ i ∈ hydrogenIdx s, ∃ h, s.atoms[i]? = some h ∧ h.element = 1 := by
    intro i hi
    unfold hydrogenIdx at hi
    rw [List.mem_filter] at hi
    obtain ⟨hrange, hcond⟩ := hi
    match hmatch : s.atoms[i]? with
    | some a =>
      refine ⟨a, rfl, ?_⟩
      rw [hmatch] at hcond
      simpa using hcond
    | none =>
      rw [hmatch] at hcond
      simp at hcond
  obtain ⟨res, hres, hreslen, hresspec⟩ := foldlM_foldHydrogen_spec s.bonds s.atoms
    (hydrogenIdx s) s.atoms rfl hpart hsrc
    (fun k a a' h1 h2 => by rw [h1] at h2; rw [Option.some.inj h2])
    (fun k a hka _ => hka)
  have hres_eq : res = foldedAtoms s := by
    apply List.ext_getElem?
    intro k
    by_cases hk : k < s.atoms.length
    · have hka : s.atoms[k]? = some s.atoms[k] := List.getElem?_eq_getElem hk
      rw [hresspec k _ hka]
      unfold foldedAtoms
      rw [List.getElem?_map]
      rw [List.getElem?_range hk]
      show _ = some (foldedAtom s k)
      unfold foldedAtom
      rw [hka]
    · have h1 : res[k]? = none := List.getElem?_eq_none (by omega)
      have h2 : (foldedAtoms s)[k]? = none := by
        refine List.getElem?_eq_none ?_
        unfold foldedAtoms
        rw [List.length_map, List.length_range]
        omega
      rw [h1, h2]
  unfold apply_forcefield_strip
  rw [hres, hres_eq]
  rfl

/-- C6 counterexample: a hydrogen bonded to two carbons does not have exactly
one bond partner, yet apply_forcefield does not fail (no TopologyError exists
in the code): it silently folds the hydrogen's mass and charge into the first
partner only and strips the hydrogen. -/
theorem claim_C6_counterexample :
    apply_forcefield_strip twoBondHStructure =
      .ok [{ element := 6, mass := 13, charge := 0 },
        { element := 6, mass := 12, charge := -1/10 }] := by
  have h1 : apply_forcefield_strip twoBondHStructure =
      .ok [{ element := 6, mass := 12 + 1, charge := -1/10 + 1/10 },
        { element := 6, mass := 12, charge := -1/10 }] := rfl
  rw [h1]
  norm_num

/-- C6 amended: with hydrogen stripping enabled, every hydrogen's mass and
charge is added to its first bond partner and the hydrogens are removed
(res = strippedAtoms s), provided each hydrogen has at least one bond partner
and that first partner is a heavy atom; a hydrogen with no partner raises
IndexError (not TopologyError, which does not exist), and extra partners are
not rejected.  In particular the carbon/hydrogen example yields exactly one
atom with mass 13 and charge 0. -/
theorem claim_C6_amended (s : Structure)
    (hpart : ∀ i ∈ hydrogenIdx s, ∃ j, (bond_partners s.bonds i).head? = some j ∧
      ∃ b, s.atoms[j]? = some b ∧ b.element ≠ 1) :
    apply_forcefield_strip s = .ok (strippedAtoms s) ∧
    apply_forcefield_strip chStructure =
      .ok [{ element := 6, mass := 13, charge := 0 }] ∧
    apply_forcefield_strip loneHStructure = .error .indexError := by
  refine ⟨apply_forcefield_strip_spec s hpart, ?_, rfl⟩
  have h1 : apply_forcefield_strip chStructure =
      .ok [{ element := 6, mass := 12 + 1, charge := -1/10 + 1/10 }] := rfl
  rw [h1]
  norm_num

/-- C6 amended witness: the amended statement instantiated on the concrete
carbon/hydrogen example. -/
theorem claim_C6_amended_witness :
    apply_forcefield_strip chStructure = .ok (strippedAtoms chStructure) ∧
    apply_forcefield_strip chStructure =
      .ok [{ element := 6, mass := 13, charge := 0 }] ∧
    apply_forcefield_strip loneHStructure = .error .indexError :=
  claim_C6_amended chStructure (by
    intro i hi
    have h2 : hydrogenIdx chStructure = [1] := rfl
    rw [h2, List.mem_singleton] at hi
    subst hi
    exact ⟨0, rfl, { element := 6, mass := 12, charge := -1/10 }, rfl,
      by norm_num⟩)

end PolymerMD
